import Mathlib

/-!
# Verification of the BAN6440 supervised-learning pipeline

A shallow embedding of `src/BAN6440.PY`: a batch pipeline that splits a
tabular dataset, standardizes features on the train partition, fits a
baseline linear model plus a random-forest ensemble, tunes the ensemble by
exhaustive grid search under 3-fold cross-validation, and reports (MSE, R²)
for all three models.

The script's algorithmic steps are calls into scikit-learn
(`train_test_split`, `StandardScaler`, `GridSearchCV`, `r2_score`, …).
Those library routines are not part of this repository, so each is modelled
here from its documented semantics at the call site; the script's own
control flow (the try/except-per-stage staging, the grid definition, which
data is passed to which call) is embedded directly from the source.
Numeric values are rationals; model fitting itself is treated as an
abstract deterministic function supplied by the library.
-/

namespace BAN6440

/-- Configuration record of `RandomForestRegressor` restricted to the
fields the script ever sets (src/BAN6440.PY lines 120, 163-168, 172, 188).
Default field values are scikit-learn's documented defaults
(`n_estimators=100, max_depth=None, min_samples_split=2,
min_samples_leaf=1, random_state=None`). -/
structure RFConfig where
  nEstimators : ℕ := 100
  maxDepth : Option ℕ := none
  minSamplesSplit : ℕ := 2
  minSamplesLeaf : ℕ := 1
  randomState : Option ℕ := none
deriving DecidableEq, Repr

/-- One point of the hyperparameter grid: values for exactly the four keys
of `param_grid` (src/BAN6440.PY lines 163-168). -/
structure RFParams where
  nEstimators : ℕ
  maxDepth : Option ℕ
  minSamplesSplit : ℕ
  minSamplesLeaf : ℕ
deriving DecidableEq, Repr

/-- Grid values `param_grid['n_estimators'] = [50, 100, 200]` (line 164). -/
def nEstimatorsGrid : List ℕ := [50, 100, 200]

/-- Grid values `param_grid['max_depth'] = [None, 10, 20, 30]` (line 165). -/
def maxDepthGrid : List (Option ℕ) := [none, some 10, some 20, some 30]

/-- Grid values `param_grid['min_samples_split'] = [2, 5, 10]` (line 166). -/
def minSamplesSplitGrid : List ℕ := [2, 5, 10]

/-- Grid values `param_grid['min_samples_leaf'] = [1, 2, 4]` (line 167). -/
def minSamplesLeafGrid : List ℕ := [1, 2, 4]

/-- The candidate list explored by `GridSearchCV`: the Cartesian product of
the four value lists of `param_grid`, in a fixed deterministic enumeration
order (scikit-learn's `ParameterGrid` enumerates the product in a fixed
order determined by the grid; the exact order is irrelevant to the claims,
only that it is deterministic and exhaustive). -/
def gridCandidates : List RFParams :=
  nEstimatorsGrid.flatMap fun n =>
    maxDepthGrid.flatMap fun d =>
      minSamplesSplitGrid.flatMap fun s =>
        minSamplesLeafGrid.map fun l =>
          { nEstimators := n, maxDepth := d, minSamplesSplit := s, minSamplesLeaf := l }

/-- The cross-validation jobs run by `GridSearchCV(..., cv=k)`
(src/BAN6440.PY lines 171-181): one training job per (candidate, fold)
pair, for folds `0, …, k-1`. -/
def cvJobs (k : ℕ) : List (RFParams × ℕ) :=
  gridCandidates.flatMap fun c => (List.range k).map fun i => (c, i)

theorem gridCandidates_nodup : gridCandidates.Nodup := by decide

theorem gridCandidates_length : gridCandidates.length = 108 := by decide

theorem mem_gridCandidates_iff (p : RFParams) :
    p ∈ gridCandidates ↔
      p.nEstimators ∈ nEstimatorsGrid ∧ p.maxDepth ∈ maxDepthGrid ∧
      p.minSamplesSplit ∈ minSamplesSplitGrid ∧ p.minSamplesLeaf ∈ minSamplesLeafGrid := by
  constructor
  · intro h
    simp only [gridCandidates, List.mem_flatMap, List.mem_map] at h
    obtain ⟨n, hn, d, hd, s, hs, l, hl, rfl⟩ := h
    exact ⟨hn, hd, hs, hl⟩
  · rintro ⟨hn, hd, hs, hl⟩
    simp only [gridCandidates, List.mem_flatMap, List.mem_map]
    exact ⟨p.nEstimators, hn, p.maxDepth, hd, p.minSamplesSplit, hs, p.minSamplesLeaf, hl, rfl⟩

theorem cvJobs_nodup (k : ℕ) : (cvJobs k).Nodup := by
  rw [cvJobs, List.nodup_flatMap]
  refine ⟨fun c _ => (List.nodup_range k).map fun i j h => congrArg Prod.snd h, ?_⟩
  refine List.Pairwise.imp ?_ gridCandidates_nodup
  intro a b hab x hxa hxb
  simp only [List.mem_map, List.mem_range] at hxa hxb
  obtain ⟨i, _, rfl⟩ := hxa
  obtain ⟨j, _, hj⟩ := hxb
  exact hab (congrArg Prod.fst hj.symm)

theorem mem_cvJobs_iff (k : ℕ) (p : RFParams × ℕ) :
    p ∈ cvJobs k ↔ p.1 ∈ gridCandidates ∧ p.2 < k := by
  simp only [cvJobs, List.mem_flatMap, List.mem_map, List.mem_range]
  constructor
  · rintro ⟨c, hc, i, hi, rfl⟩
    exact ⟨hc, hi⟩
  · rintro ⟨hc, hi⟩
    exact ⟨p.1, hc, p.2, hi, rfl⟩

theorem flatMap_pair_range_length (k : ℕ) (l : List RFParams) :
    (l.flatMap fun c => (List.range k).map fun i => (c, i)).length = l.length * k := by
  induction l with
  | nil => simp
  | cons c l ih => simp [ih, Nat.succ_mul, Nat.add_comm]

theorem cvJobs_length (k : ℕ) : (cvJobs k).length = gridCandidates.length * k :=
  flatMap_pair_range_length k gridCandidates

/-- Claim C1 (counterexample): The reference grid does not have 144
candidates and `cv = 3` does not produce 432 jobs: `min_samples_leaf` has
three values `[1, 2, 4]`, so the product is 3×4×3×3 = 108 candidates and
324 cross-validation jobs. -/
theorem grid_search_job_count_not_432 :
    gridCandidates.length = 108 ∧ (cvJobs 3).length = 324 ∧
    gridCandidates.length ≠ 144 ∧ (cvJobs 3).length ≠ 432 := by
  refine ⟨gridCandidates_length, ?_, ?_, ?_⟩ <;>
    simp [cvJobs_length, gridCandidates_length]

/-- Claim C1 (amended): The hyperparameter search runs each point of the
Cartesian product of `param_grid` exactly once per fold: a cross-validation
job `(c, i)` is executed iff `c` is a grid candidate and `i < k`, and no
job is duplicated; the total job count is `|grid| × k`, and for the
reference grid (3×4×3×3 = 108 candidates) with `cv = 3` that is exactly
324 jobs. -/
theorem grid_search_job_count :
    (∀ k : ℕ, (∀ p : RFParams × ℕ, p ∈ cvJobs k ↔ p.1 ∈ gridCandidates ∧ p.2 < k) ∧
      (cvJobs k).Nodup ∧
      (cvJobs k).length = gridCandidates.length * k) ∧
    gridCandidates.length = 108 ∧ (cvJobs 3).length = 324 := by
  refine ⟨fun k => ⟨mem_cvJobs_iff k, cvJobs_nodup k, cvJobs_length k⟩, gridCandidates_length, ?_⟩
  rw [cvJobs_length, gridCandidates_length]

/-- Selection step of `GridSearchCV` (src/BAN6440.PY line 184,
`grid_search.best_params_`): given the candidates in enumeration order,
each paired with its mean cross-validated score (`none` for a candidate
with no valid score, scikit-learn's `error_score=np.nan`), return the
index, candidate and score of the first candidate attaining the maximum
mean score among valid ones.  scikit-learn computes `best_index_` as the
argmin of `rank_test_score`, which for ties returns the first occurrence
in enumeration order; a later candidate replaces the current best only
when its score is strictly greater. -/
def combineBest {α : Type} (c : α) (s : Option ℚ) (r : Option (ℕ × α × ℚ)) :
    Option (ℕ × α × ℚ) :=
  match s, r with
  | none, none => none
  | none, some (i, c2, v2) => some (i + 1, c2, v2)
  | some v, none => some (0, c, v)
  | some v, some (i, c2, v2) => if v < v2 then some (i + 1, c2, v2) else some (0, c, v)

def selectBest {α : Type} : List (α × Option ℚ) → Option (ℕ × α × ℚ)
  | [] => none
  | (c, s) :: rest => combineBest c s (selectBest rest)

theorem selectBest_eq_none {α : Type} {l : List (α × Option ℚ)}
    (h : selectBest l = none) : ∀ p ∈ l, p.2 = none := by
  induction l with
  | nil => intro p hp; cases hp
  | cons hd rest ih =>
    obtain ⟨c, s⟩ := hd
    rw [selectBest] at h
    intro p hp
    cases s with
    | none =>
      cases hrest : selectBest rest with
      | none =>
        rcases List.mem_cons.1 hp with rfl | hp
        · rfl
        · exact ih hrest p hp
      | some r =>
        obtain ⟨i, c2, v2⟩ := r
        rw [hrest] at h
        simp [combineBest] at h
    | some v =>
      cases hrest : selectBest rest with
      | none =>
        rw [hrest] at h
        simp [combineBest] at h
      | some r =>
        obtain ⟨i, c2, v2⟩ := r
        rw [hrest] at h
        by_cases hv : v < v2 <;> simp [combineBest, hv] at h

theorem selectBest_mem {α : Type} {l : List (α × Option ℚ)} {i : ℕ} {c : α} {v : ℚ}
    (h : selectBest l = some (i, c, v)) : l[i]? = some (c, some v) := by
  induction l generalizing i c v with
  | nil => cases h
  | cons hd rest ih =>
    obtain ⟨c0, s0⟩ := hd
    rw [selectBest] at h
    cases s0 with
    | none =>
      cases hrest : selectBest rest with
      | none => rw [hrest] at h; simp [combineBest] at h
      | some r =>
        obtain ⟨j, c2, v2⟩ := r
        rw [hrest] at h
        simp only [combineBest, Option.some_inj, Prod.mk.injEq] at h
        obtain ⟨rfl, rfl, rfl⟩ := h
        simp only [List.getElem?_cons_succ]
        exact ih hrest
    | some v0 =>
      cases hrest : selectBest rest with
      | none =>
        rw [hrest] at h
        simp only [combineBest, Option.some_inj, Prod.mk.injEq] at h
        obtain ⟨rfl, rfl, rfl⟩ := h
        simp
      | some r =>
        obtain ⟨j, c2, v2⟩ := r
        rw [hrest] at h
        by_cases hv : v0 < v2
        · simp only [combineBest, if_pos hv, Option.some_inj, Prod.mk.injEq] at h
          obtain ⟨rfl, rfl, rfl⟩ := h
          simp only [List.getElem?_cons_succ]
          exact ih hrest
        · simp only [combineBest, if_neg hv, Option.some_inj, Prod.mk.injEq] at h
          obtain ⟨rfl, rfl, rfl⟩ := h
          simp

theorem selectBest_max {α : Type} {l : List (α × Option ℚ)} {i : ℕ} {c : α} {v : ℚ}
    (h : selectBest l = some (i, c, v)) :
    ∀ (j : ℕ) (c2 : α) (v2 : ℚ), l[j]? = some (c2, some v2) → v2 ≤ v := by
  induction l generalizing i c v with
  | nil => cases h
  | cons hd rest ih =>
    obtain ⟨c0, s0⟩ := hd
    rw [selectBest] at h
    intro j c2 v2 hj
    cases s0 with
    | none =>
      cases hrest : selectBest rest with
      | none => rw [hrest] at h; simp [combineBest] at h
      | some r =>
        obtain ⟨k, c3, v3⟩ := r
        rw [hrest] at h
        simp only [combineBest, Option.some_inj, Prod.mk.injEq] at h
        obtain ⟨rfl, rfl, rfl⟩ := h
        cases j with
        | zero => simp at hj
        | succ j =>
          simp only [List.getElem?_cons_succ] at hj
          exact ih hrest j c2 v2 hj
    | some v0 =>
      cases hrest : selectBest rest with
      | none =>
        rw [hrest] at h
        simp only [combineBest, Option.some_inj, Prod.mk.injEq] at h
        obtain ⟨rfl, rfl, rfl⟩ := h
        cases j with
        | zero =>
          simp only [List.getElem?_cons_zero, Option.some_inj, Prod.mk.injEq] at hj
          exact le_of_eq hj.2.symm
        | succ j =>
          simp only [List.getElem?_cons_succ] at hj
          have hmem : (c2, some v2) ∈ rest := List.getElem?_mem hj
          have := selectBest_eq_none hrest _ hmem
          simp at this
      | some r =>
        obtain ⟨k, c3, v3⟩ := r
        rw [hrest] at h
        by_cases hv : v0 < v3
        · simp only [combineBest, if_pos hv, Option.some_inj, Prod.mk.injEq] at h
          obtain ⟨rfl, rfl, rfl⟩ := h
          cases j with
          | zero =>
            simp only [List.getElem?_cons_zero, Option.some_inj, Prod.mk.injEq] at hj
            exact hj.2 ▸ le_of_lt hv
          | succ j =>
            simp only [List.getElem?_cons_succ] at hj
            exact ih hrest j c2 v2 hj
        · simp only [combineBest, if_neg hv, Option.some_inj, Prod.mk.injEq] at h
          obtain ⟨rfl, rfl, rfl⟩ := h
          cases j with
          | zero =>
            simp only [List.getElem?_cons_zero, Option.some_inj, Prod.mk.injEq] at hj
            exact le_of_eq hj.2.symm
          | succ j =>
            simp only [List.getElem?_cons_succ] at hj
            have h1 := ih hrest j c2 v2 hj
            have h2 := le_of_not_lt hv
            exact le_trans h1 h2

theorem selectBest_first {α : Type} {l : List (α × Option ℚ)} {i : ℕ} {c : α} {v : ℚ}
    (h : selectBest l = some (i, c, v)) :
    ∀ (j : ℕ) (c2 : α) (v2 : ℚ), j < i → l[j]? = some (c2, some v2) → v2 < v := by
  induction l generalizing i c v with
  | nil => cases h
  | cons hd rest ih =>
    obtain ⟨c0, s0⟩ := hd
    rw [selectBest] at h
    intro j c2 v2 hji hj
    cases s0 with
    | none =>
      cases hrest : selectBest rest with
      | none => rw [hrest] at h; simp [combineBest] at h
      | some r =>
        obtain ⟨k, c3, v3⟩ := r
        rw [hrest] at h
        simp only [combineBest, Option.some_inj, Prod.mk.injEq] at h
        obtain ⟨rfl, rfl, rfl⟩ := h
        cases j with
        | zero => simp at hj
        | succ j =>
          simp only [List.getElem?_cons_succ] at hj
          exact ih hrest j c2 v2 (Nat.lt_of_succ_lt_succ hji) hj
    | some v0 =>
      cases hrest : selectBest rest with
      | none =>
        rw [hrest] at h
        simp only [combineBest, Option.some_inj, Prod.mk.injEq] at h
        obtain ⟨rfl, rfl, rfl⟩ := h
        exact absurd hji (Nat.not_lt_zero j)
      | some r =>
        obtain ⟨k, c3, v3⟩ := r
        rw [hrest] at h
        by_cases hv : v0 < v3
        · simp only [combineBest, if_pos hv, Option.some_inj, Prod.mk.injEq] at h
          obtain ⟨rfl, rfl, rfl⟩ := h
          cases j with
          | zero =>
            simp only [List.getElem?_cons_zero, Option.some_inj, Prod.mk.injEq] at hj
            exact hj.2 ▸ hv
          | succ j =>
            simp only [List.getElem?_cons_succ] at hj
            exact ih hrest j c2 v2 (Nat.lt_of_succ_lt_succ hji) hj
        · simp only [combineBest, if_neg hv, Option.some_inj, Prod.mk.injEq] at h
          obtain ⟨rfl, rfl, rfl⟩ := h
          exact absurd hji (Nat.not_lt_zero j)

theorem selectBest_isSome {α : Type} {l : List (α × Option ℚ)}
    (h : ∃ p ∈ l, p.2.isSome) : (selectBest l).isSome := by
  cases hl : selectBest l with
  | none =>
    obtain ⟨p, hp, hsome⟩ := h
    rw [selectBest_eq_none hl p hp] at hsome
    cases hsome
  | some r => rfl

/-- The candidate scores table of the grid search: every grid candidate in
enumeration order paired with its mean cross-validated score (an abstract
scoring function stands for the k-fold mean R², `none` for a candidate
whose folds all failed). -/
def candidateScores (score : RFParams → Option ℚ) : List (RFParams × Option ℚ) :=
  gridCandidates.map fun c => (c, score c)

/-- Selection `grid_search.best_params_` as a function of the scoring outcome. -/
def bestCandidate (score : RFParams → Option ℚ) : Option (ℕ × RFParams × ℚ) :=
  selectBest (candidateScores score)

theorem candidateScores_getElem (score : RFParams → Option ℚ) (j : ℕ)
    (p : RFParams × Option ℚ) (h : (candidateScores score)[j]? = some p) :
    gridCandidates[j]? = some p.1 ∧ score p.1 = p.2 := by
  simp only [candidateScores, List.getElem?_map] at h
  cases hg : gridCandidates[j]? with
  | none => rw [hg] at h; cases h
  | some c =>
    rw [hg] at h
    have hp : (c, score c) = p := by
      simpa using h
    subst hp
    refine ⟨?_, rfl⟩
    simpa using hg

/-- Claim C2: Whenever at least one grid candidate has a valid mean score,
the grid search returns a candidate whose mean cross-validated score is
greater than or equal to that of every candidate with a valid score, and
every earlier candidate in the deterministic enumeration order of the grid
has a strictly smaller valid score (ties are won by the first-encountered
candidate). -/
theorem grid_search_selects_best (score : RFParams → Option ℚ)
    (h : ∃ c ∈ gridCandidates, (score c).isSome) :
    ∃ i c v, bestCandidate score = some (i, c, v) ∧
      gridCandidates[i]? = some c ∧ score c = some v ∧
      (∀ c2 ∈ gridCandidates, ∀ v2, score c2 = some v2 → v2 ≤ v) ∧
      (∀ j, j < i → ∀ c2 v2, gridCandidates[j]? = some c2 → score c2 = some v2 → v2 < v) := by
  have hsome : (selectBest (candidateScores score)).isSome := by
    refine selectBest_isSome ?_
    obtain ⟨c, hc, hs⟩ := h
    exact ⟨(c, score c), List.mem_map_of_mem _ hc, hs⟩
  obtain ⟨⟨i, c, v⟩, hb⟩ := Option.isSome_iff_exists.1 hsome
  refine ⟨i, c, v, hb, ?_, ?_, ?_, ?_⟩
  · have := candidateScores_getElem score i _ (selectBest_mem hb)
    exact this.1
  · have := candidateScores_getElem score i _ (selectBest_mem hb)
    exact this.2
  · intro c2 hc2 v2 hv2
    obtain ⟨j, hj, hjc⟩ := List.getElem_of_mem hc2
    refine selectBest_max hb j c2 v2 ?_
    simp only [candidateScores, List.getElem?_map]
    rw [List.getElem?_eq_getElem hj, hjc]
    simp [hv2]
  · intro j hj c2 v2 hjc hv2
    refine selectBest_first hb j c2 v2 hj ?_
    simp only [candidateScores, List.getElem?_map]
    rw [hjc]
    simp [hv2]

/-- Claim C2 (witness): Instantiation of `grid_search_selects_best` at the
concrete scoring function mapping each candidate to its `n_estimators`
value: the hypothesis holds (the grid is nonempty with a valid score) and
the selected candidate's score dominates all candidates. -/
theorem grid_search_selects_best_witness :
    ∃ i c v,
      bestCandidate (fun c => some (c.nEstimators : ℚ)) = some (i, c, v) ∧
      gridCandidates[i]? = some c ∧ (fun c : RFParams => some (c.nEstimators : ℚ)) c = some v ∧
      (∀ c2 ∈ gridCandidates, ∀ v2,
        (fun c : RFParams => some (c.nEstimators : ℚ)) c2 = some v2 → v2 ≤ v) ∧
      (∀ j, j < i → ∀ c2 v2, gridCandidates[j]? = some c2 →
        (fun c : RFParams => some (c.nEstimators : ℚ)) c2 = some v2 → v2 < v) := by
  refine grid_search_selects_best (fun c => some (c.nEstimators : ℚ)) ?_
  refine ⟨{ nEstimators := 50, maxDepth := none, minSamplesSplit := 2, minSamplesLeaf := 1 },
    ?_, rfl⟩
  decide

/-- Modelled from the spec: a deterministic pseudo-random step used to
drive the seeded shuffle of the Dataset Splitter.  `train_test_split` at
src/BAN6440.PY line 74 delegates the shuffle to scikit-learn's seeded
permutation, which is external library code; the spec only requires that
the shuffle be a deterministic function of the seed. -/
def lcg (s : ℕ) : ℕ := (1664525 * s + 1013904223) % 4294967296

/-- Remove and return the element at position `n` (used by the shuffle). -/
def pick {α : Type} : List α → ℕ → Option (α × List α)
  | [], _ => none
  | a :: l, 0 => some (a, l)
  | a :: l, n + 1 => (pick l n).map fun p => (p.1, a :: p.2)

theorem pick_perm {α : Type} {l : List α} {n : ℕ} {a : α} {r : List α}
    (h : pick l n = some (a, r)) : l.Perm (a :: r) := by
  induction l generalizing n a r with
  | nil => cases h
  | cons b l ih =>
    cases n with
    | zero =>
      simp only [pick, Option.some_inj, Prod.mk.injEq] at h
      obtain ⟨rfl, rfl⟩ := h
      exact List.Perm.refl _
    | succ n =>
      simp only [pick] at h
      cases hp : pick l n with
      | none => rw [hp] at h; cases h
      | some p =>
        obtain ⟨a0, r0⟩ := p
        rw [hp] at h
        simp only [Option.map_some', Option.some_inj, Prod.mk.injEq] at h
        obtain ⟨rfl, rfl⟩ := h
        exact ((ih hp).cons b).trans (List.Perm.swap a0 b r0)

/-- Modelled from the spec: deterministic seeded shuffle (Fisher–Yates
driven by `lcg`), standing for the seed-determined row permutation the
Dataset Splitter contract requires. -/
def shuffleFuel {α : Type} : ℕ → ℕ → List α → List α
  | 0, _, l => l
  | fuel + 1, s, l =>
    match pick l (s % l.length) with
    | none => l
    | some (a, rest) => a :: shuffleFuel fuel (lcg s) rest

theorem shuffleFuel_perm {α : Type} : ∀ (fuel s : ℕ) (l : List α),
    (shuffleFuel fuel s l).Perm l := by
  intro fuel
  induction fuel with
  | zero => intro s l; exact List.Perm.refl _
  | succ fuel ih =>
    intro s l
    rw [shuffleFuel]
    cases hp : pick l (s % l.length) with
    | none => exact List.Perm.refl _
    | some p =>
      obtain ⟨a, rest⟩ := p
      exact (((ih (lcg s) rest).cons a).trans (pick_perm hp).symm)

def shuffle {α : Type} (seed : ℕ) (l : List α) : List α :=
  shuffleFuel l.length seed l

theorem shuffle_perm {α : Type} (seed : ℕ) (l : List α) : (shuffle seed l).Perm l :=
  shuffleFuel_perm l.length seed l

/-- Modelled from the spec: the Dataset Splitter
(`train_test_split(X, y, test_size=0.2, random_state=42)`,
src/BAN6440.PY line 74).  Given `N` rows, a test fraction `f` and a seed,
it deterministically shuffles the rows with the seed, assigns the first
`(1−f)·N` rows of the shuffled order to the train partition and the
remainder to the test partition; the test partition has `⌈f·N⌉` rows
(scikit-learn's documented rounding for a float `test_size`). -/
def train_test_split {α : Type} (rows : List α) (f : ℚ) (seed : ℕ) :
    List α × List α :=
  ((shuffle seed rows).take (rows.length - (⌈(f * rows.length : ℚ)⌉).toNat),
   (shuffle seed rows).drop (rows.length - (⌈(f * rows.length : ℚ)⌉).toNat))

theorem train_test_split_eval {α : Type} (rows : List α) (f : ℚ) (seed : ℕ) (k : ℕ)
    (hk : (⌈(f * rows.length : ℚ)⌉).toNat = k) :
    train_test_split rows f seed =
      ((shuffle seed rows).take (rows.length - k),
       (shuffle seed rows).drop (rows.length - k)) := by
  rw [train_test_split, hk]

/-- Claim C4: For every dataset of at least 2 rows and test fraction
`f ∈ (0,1)`, the Dataset Splitter deterministically shuffles the rows with
the seed and takes the first `(1−f)·N` rows of the shuffled order as the
train partition and the remainder as the test partition; the train
partition has `N − ⌈f·N⌉` rows, the test partition `⌈f·N⌉` rows, together
they are a permutation of the dataset (every row covered exactly once),
and when all rows are distinct the two partitions are disjoint. -/
theorem dataset_splitter_partition {α : Type} (rows : List α) (f : ℚ) (seed : ℕ)
    (hN : 2 ≤ rows.length) (hf0 : 0 < f) (hf1 : f < 1) :
    (train_test_split rows f seed).1 =
      (shuffle seed rows).take (rows.length - (⌈(f * rows.length : ℚ)⌉).toNat) ∧
    (train_test_split rows f seed).2 =
      (shuffle seed rows).drop (rows.length - (⌈(f * rows.length : ℚ)⌉).toNat) ∧
    (train_test_split rows f seed).1.length =
      rows.length - (⌈(f * rows.length : ℚ)⌉).toNat ∧
    (train_test_split rows f seed).2.length = (⌈(f * rows.length : ℚ)⌉).toNat ∧
    ((train_test_split rows f seed).1 ++ (train_test_split rows f seed).2).Perm rows ∧
    (rows.Nodup → (train_test_split rows f seed).1.Disjoint (train_test_split rows f seed).2) := by
  have hperm : (shuffle seed rows).Perm rows := shuffle_perm seed rows
  have hlen : (shuffle seed rows).length = rows.length := hperm.length_eq
  have hNpos : (0 : ℚ) < (rows.length : ℚ) := by
    have : 0 < rows.length := lt_of_lt_of_le (by norm_num) hN
    exact_mod_cast this
  have hceil : (⌈(f * rows.length : ℚ)⌉).toNat ≤ rows.length := by
    rw [Int.toNat_le, Int.ceil_le]
    push_cast
    nlinarith
  refine ⟨rfl, rfl, ?_, ?_, ?_, ?_⟩
  · simp only [train_test_split, List.length_take, hlen]
    exact min_eq_left (Nat.sub_le _ _)
  · simp only [train_test_split, List.length_drop, hlen]
    omega
  · simp only [train_test_split]
    rw [List.take_append_drop]
    exact hperm
  · intro hnd
    simp only [train_test_split]
    exact List.disjoint_take_drop (hperm.nodup_iff.mpr hnd) (le_refl _)

/-- Claim C4 (witness): The reference scenario: 100 rows (taken as row
indices 0..99), test fraction 0.2, seed 42 — the train partition has 80
rows, the test partition 20 rows, together they are a permutation of all
100 row indices, and the two partitions are disjoint. -/
theorem dataset_splitter_partition_witness :
    (train_test_split (List.range 100) (1/5) 42).1.length = 80 ∧
    (train_test_split (List.range 100) (1/5) 42).2.length = 20 ∧
    ((train_test_split (List.range 100) (1/5) 42).1 ++
      (train_test_split (List.range 100) (1/5) 42).2).Perm (List.range 100) ∧
    (train_test_split (List.range 100) (1/5) 42).1.Disjoint
      (train_test_split (List.range 100) (1/5) 42).2 := by
  have h := dataset_splitter_partition (List.range 100) (1/5) 42
    (by simp) (by norm_num) (by norm_num)
  obtain ⟨-, -, h1, h2, h3, h4⟩ := h
  have hceil : (⌈((1/5 : ℚ) * (List.range 100).length)⌉).toNat = 20 := by
    norm_num [List.length_range]
    rfl
  refine ⟨?_, ?_, h3, h4 (List.nodup_range 100)⟩
  · rw [h1, hceil]; simp
  · rw [h2, hceil]

/-- Mean of a column of values (scikit-learn's per-feature mean; division
by zero yields 0 in ℚ, matching an empty column only). -/
def colMean (col : List ℚ) : ℚ := col.sum / col.length

/-- Population variance of a column (scikit-learn `StandardScaler` uses
the biased variance `var_ = mean((x - mean)²)`). -/
def colVar (col : List ℚ) : ℚ :=
  ((col.map fun x => (x - colMean col) ^ 2).sum) / col.length

/-- The square of the fitted `scale_` of `StandardScaler`
(src/BAN6440.PY lines 77-78).  scikit-learn sets
`scale_ = sqrt(var_)` and then replaces zero scales by 1
(`_handle_zeros_in_scale`), so no transform ever divides by zero; since
`sqrt` leaves ℚ we model `scale_` by its square, which determines it
(`scale_ > 0`): `scale_² = var_` when `var_ ≠ 0` and `scale_² = 1 = scale_`
when `var_ = 0`. -/
def scalerScaleSq (col : List ℚ) : ℚ :=
  if colVar col = 0 then 1 else colVar col

/-- Number of feature columns of a row-major matrix. -/
def nCols (X : List (List ℚ)) : ℕ := (X.headD []).length

/-- Column `j` of a row-major matrix. -/
def column (X : List (List ℚ)) (j : ℕ) : List ℚ := X.map fun row => row.getD j 0

/-- Fitted state of `StandardScaler` after `fit_transform(X_train)`
(src/BAN6440.PY line 78): per-column mean and squared scale, computed from
the argument matrix only. -/
structure ScalerState where
  means : List ℚ
  scaleSqs : List ℚ
deriving DecidableEq, Repr

/-- Fit of `StandardScaler()` on a train matrix: per-column mean and squared
scale.  The fit reads only its argument (the train partition). -/
def fitScaler (X : List (List ℚ)) : ScalerState :=
  { means := (List.range (nCols X)).map fun j => colMean (column X j),
    scaleSqs := (List.range (nCols X)).map fun j => scalerScaleSq (column X j) }

theorem colVar_const {col : List ℚ} {c : ℚ} (h : ∀ x ∈ col, x = c) :
    colVar col = 0 := by
  rcases List.eq_nil_or_concat col with rfl | hne
  · simp [colVar]
  · have hlen : col.length ≠ 0 := by
      obtain ⟨l, a, rfl⟩ := hne
      simp
    have hmean : colMean col = c := by
      have hsum : col.sum = col.length • c := List.sum_eq_card_nsmul col c h
      have hq : (col.length : ℚ) ≠ 0 := by exact_mod_cast hlen
      rw [colMean, hsum, nsmul_eq_mul, mul_comm, mul_div_assoc, div_self hq, mul_one]
    have hzero : (col.map fun x => (x - colMean col) ^ 2) = col.map fun _ => 0 := by
      refine List.map_congr_left ?_
      intro x hx
      rw [h x hx, hmean]
      ring
    rw [colVar, hzero]
    simp

/-- Claim C7: If a column of the training matrix is constant (zero
variance), `StandardScaler.fit` applies the documented fallback: the
substituted standard deviation is 1 (its square is 1), so the transform
never divides by zero; moreover every fitted squared scale is nonzero, so
no column ever produces a division by zero (no NaN). -/
theorem scaler_zero_variance_policy (X : List (List ℚ)) (j : ℕ) (c : ℚ)
    (hj : j < nCols X) (hconst : ∀ row ∈ X, row.getD j 0 = c) :
    (fitScaler X).scaleSqs[j]? = some 1 ∧
    ∀ (i : ℕ) (s : ℚ), (fitScaler X).scaleSqs[i]? = some s → s ≠ 0 := by
  constructor
  · have hvar : colVar (column X j) = 0 := by
      have hall : ∀ x ∈ column X j, x = c := by
        intro x hx
        simp only [column, List.mem_map] at hx
        obtain ⟨row, hrow, rfl⟩ := hx
        exact hconst row hrow
      exact colVar_const hall
    simp only [fitScaler, List.getElem?_map]
    rw [List.getElem?_range hj]
    simp [scalerScaleSq, hvar]
  · intro i s hs
    simp only [fitScaler, List.getElem?_map] at hs
    cases hr : (List.range (nCols X))[i]? with
    | none => rw [hr] at hs; cases hs
    | some m =>
      rw [hr] at hs
      simp only [Option.map_some', Option.some_inj] at hs
      subst hs
      rw [scalerScaleSq]
      split
      · exact one_ne_zero
      · assumption

/-- Claim C7 (witness): A 3×1 training matrix whose single column is
constant at 7: the fitted squared scale of that column is 1 (std
substituted by 1) and no fitted squared scale is zero. -/
theorem scaler_zero_variance_policy_witness :
    (fitScaler [[7], [7], [7]]).scaleSqs[0]? = some 1 ∧
    ∀ (i : ℕ) (s : ℚ), (fitScaler [[7], [7], [7]]).scaleSqs[i]? = some s → s ≠ 0 :=
  scaler_zero_variance_policy [[7], [7], [7]] 0 7 (by decide) (by decide)

/-- Train-partition row indices of the reference split: the script calls
`train_test_split(X, y, test_size=0.2, random_state=42)`
(src/BAN6440.PY line 74), which splits `X` and `y` by one shared shuffled
index sequence. -/
def trainIdx (N : ℕ) (f : ℚ) (seed : ℕ) : List ℕ :=
  (train_test_split (List.range N) f seed).1

/-- Test-partition row indices of the reference split. -/
def testIdx (N : ℕ) (f : ℚ) (seed : ℕ) : List ℕ :=
  (train_test_split (List.range N) f seed).2

/-- Select the rows of `X` at the given indices. -/
def rowsAt (X : List (List ℚ)) (idx : List ℕ) : List (List ℚ) :=
  idx.map fun i => X.getD i []

/-- The scaler parameters produced by the preprocessing stage
(src/BAN6440.PY lines 74-78): split `X` by the seeded shuffle, then fit
the scaler on the train partition only — the test partition is never
passed to `fit`. -/
def scalerParams (X : List (List ℚ)) (f : ℚ) (seed : ℕ) : ScalerState :=
  fitScaler (rowsAt X (trainIdx X.length f seed))

/-- Claim C5: The fitted scaler parameters are a function of the
train-partition rows only: for any two datasets of the same size whose
rows agree on every train index (their test rows may differ arbitrarily),
fitting yields identical parameters; equivalently, altering test-partition
values never changes the fitted parameters, and the parameters are
literally `fitScaler` of the train rows, with no test input. -/
theorem scaler_no_leakage (X X2 : List (List ℚ)) (f : ℚ) (seed : ℕ)
    (hlen : X.length = X2.length)
    (hagree : ∀ i ∈ trainIdx X.length f seed, X.getD i [] = X2.getD i []) :
    scalerParams X f seed = scalerParams X2 f seed ∧
    scalerParams X f seed = fitScaler (rowsAt X (trainIdx X.length f seed)) := by
  refine ⟨?_, rfl⟩
  rw [scalerParams, scalerParams, ← hlen, rowsAt, rowsAt]
  congr 1
  exact List.map_congr_left hagree

theorem trainIdx_three : trainIdx 3 (1/5) 0 = [0, 2] := by
  have hk : (⌈((1/5 : ℚ) * ((List.range 3).length : ℕ))⌉).toNat = 1 := by
    have hc : (⌈((1/5 : ℚ) * ((List.range 3).length : ℕ))⌉) = 1 := by
      rw [List.length_range, Int.ceil_eq_iff]
      norm_num
    rw [hc]
    rfl
  rw [trainIdx, train_test_split_eval (List.range 3) (1/5) 0 1 hk]
  decide

/-- Claim C5 (witness): Two 3-row datasets that agree on the train indices
of the seed-0 split (rows 0 and 2) but differ at a test row (row 1 is in
the test partition): the fitted scaler parameters are identical. -/
theorem scaler_no_leakage_witness :
    scalerParams [[1], [2], [3]] (1/5) 0 = scalerParams [[1], [99], [3]] (1/5) 0 ∧
    scalerParams [[1], [2], [3]] (1/5) 0 =
      fitScaler (rowsAt [[1], [2], [3]] (trainIdx (List.length [[1], [2], [3]]) (1/5) 0)) := by
  refine scaler_no_leakage [[1], [2], [3]] [[1], [99], [3]] (1/5) 0 rfl ?_
  intro i hi
  rw [show ([[1], [2], [3]] : List (List ℚ)).length = 3 from rfl, trainIdx_three] at hi
  simp only [List.mem_cons, List.not_mem_nil, or_false] at hi
  rcases hi with rfl | rfl <;> rfl

/-- The Evaluator`s mean squared error
(`mean_squared_error(y_test, y_pred)`, src/BAN6440.PY line 96), modelled
from scikit-learn`s documented behavior: inputs of inconsistent lengths
raise `ValueError` (via `check_consistent_length`), otherwise the mean of
squared differences is returned. -/
def mean_squared_error (yTrue yPred : List ℚ) : Except String ℚ :=
  if yTrue.length ≠ yPred.length then
    Except.error "ValueError: inconsistent numbers of samples"
  else
    Except.ok (((List.zipWith (fun a b => (a - b) ^ 2) yTrue yPred).sum) / yTrue.length)

/-- The Evaluator`s coefficient of determination
(`r2_score(y_test, y_pred)`, src/BAN6440.PY line 97), modelled from
scikit-learn`s documented behavior: inputs of inconsistent lengths raise
`ValueError`; when `y_true` has zero variance the function does NOT raise —
it returns 1.0 when the residuals are all zero and 0.0 otherwise (with an
`UndefinedMetricWarning`); in the regular case it returns
`1 - ss_res / ss_tot`. -/
def r2_score (yTrue yPred : List ℚ) : Except String ℚ :=
  if yTrue.length ≠ yPred.length then
    Except.error "ValueError: inconsistent numbers of samples"
  else
    let ssRes := (List.zipWith (fun a b => (a - b) ^ 2) yTrue yPred).sum
    let ssTot := (yTrue.map fun a => (a - colMean yTrue) ^ 2).sum
    if ssTot = 0 then (if ssRes = 0 then Except.ok 1 else Except.ok 0)
    else Except.ok (1 - ssRes / ssTot)

/-- Claim C8 (counterexample): A zero-variance `y_true` does not make the
Evaluator fail: on `y_true = [5,5]`, `y_pred = [5,6]` the score returned
is the ordinary value `0`, not an `UndefinedMetricError` (and not NaN or
infinity — the result is a plain rational, and `Except.ok 0` is not an
`Except.error`). -/
theorem evaluator_zero_variance_no_error :
    r2_score [5, 5] [5, 6] = Except.ok 0 := by
  have hmean : colMean [5, 5] = 5 := by
    norm_num [colMean, List.sum_cons, List.sum_nil]
  rw [r2_score, if_neg (by decide)]
  simp only [List.zipWith_cons_cons, List.zipWith_nil, List.map_cons, List.map_nil,
    List.sum_cons, List.sum_nil, hmean]
  norm_num

/-- Claim C8 (amended): For equal-length numeric vectors the Evaluator
returns `R² = 1 - ss_res / ss_tot` whenever `y_true` has nonzero variance;
when `y_true` has zero variance it does not fail: it returns 1 when the
residuals are all zero and 0 otherwise; and when the two vectors have
different lengths it fails with a `ValueError`. -/
theorem evaluator_r2 (yTrue yPred : List ℚ) :
    (yTrue.length = yPred.length →
      ((yTrue.map fun a => (a - colMean yTrue) ^ 2).sum ≠ 0 →
        r2_score yTrue yPred =
          Except.ok (1 - (List.zipWith (fun a b => (a - b) ^ 2) yTrue yPred).sum /
            (yTrue.map fun a => (a - colMean yTrue) ^ 2).sum)) ∧
      ((yTrue.map fun a => (a - colMean yTrue) ^ 2).sum = 0 →
        r2_score yTrue yPred =
          (if (List.zipWith (fun a b => (a - b) ^ 2) yTrue yPred).sum = 0 then
            Except.ok 1 else Except.ok 0))) ∧
    (yTrue.length ≠ yPred.length →
      r2_score yTrue yPred = Except.error "ValueError: inconsistent numbers of samples") := by
  refine ⟨fun hlen => ⟨fun htot => ?_, fun htot => ?_⟩, fun hlen => ?_⟩
  · rw [r2_score, if_neg (by omega)]
    simp only [if_neg htot]
  · rw [r2_score, if_neg (by omega)]
    simp only [if_pos htot]
  · rw [r2_score, if_pos hlen]

/-- Claim C8 (amended, witness): Instantiation at `y_true = [1,2]`,
`y_pred = [1,3]`: lengths agree, the variance of `y_true` is nonzero, and
the returned score is `1 - 1/(1/2) = -1`; and at mismatched lengths
`[1,2]` vs `[1]` the Evaluator fails with the `ValueError`. -/
theorem evaluator_r2_witness :
    r2_score [1, 2] [1, 3] =
      Except.ok (1 - (List.zipWith (fun a b => (a - b) ^ 2) [(1:ℚ), 2] [1, 3]).sum /
        (([(1:ℚ), 2]).map fun a => (a - colMean [1, 2]) ^ 2).sum) ∧
    r2_score [1, 2] [1] = Except.error "ValueError: inconsistent numbers of samples" :=
  ⟨((evaluator_r2 [1, 2] [1, 3]).1 (by decide)).1 (by
      norm_num [colMean, List.map_cons, List.map_nil, List.sum_cons, List.sum_nil]),
   (evaluator_r2 [1, 2] [1]).2 (by decide)⟩

/-- The model-fitting operations the script calls into scikit-learn for
(`LinearRegression.fit`, `RandomForestRegressor.fit`, `.predict`,
`StandardScaler.transform`).  Fitting with a fixed `random_state` is
deterministic, so each is an abstract function of its inputs; the claims
about the pipeline concern only which inputs the script passes to which
call. -/
structure MLLib (Model : Type) where
  trainLinear : List (List ℚ) → List ℚ → Model
  trainForest : RFConfig → List (List ℚ) → List ℚ → Model
  predict : Model → List (List ℚ) → List ℚ
  transform : ScalerState → List (List ℚ) → List (List ℚ)

/-- Configuration `RandomForestRegressor(n_estimators=100, random_state=42)`
(src/BAN6440.PY line 120). -/
def defaultRFConfig : RFConfig := { nEstimators := 100, randomState := some 42 }

/-- The estimator handed to `GridSearchCV`:
`RandomForestRegressor(random_state=42)` (line 172), all other fields at
their defaults. -/
def searchEstimatorConfig : RFConfig := { randomState := some 42 }

/-- Override as in `set_params(**best_params)`: override exactly the four grid keys of a
base configuration with a candidate point. -/
def applyParams (base : RFConfig) (p : RFParams) : RFConfig :=
  { base with
    nEstimators := p.nEstimators
    maxDepth := p.maxDepth
    minSamplesSplit := p.minSamplesSplit
    minSamplesLeaf := p.minSamplesLeaf }

/-- The configuration `GridSearchCV` itself refits with (`refit=True`,
default): a clone of the search estimator with the best parameters set. -/
def gridRefitConfig (p : RFParams) : RFConfig := applyParams searchEstimatorConfig p

/-- The configuration of the explicit retraining step
`RandomForestRegressor(**best_params, random_state=42)` (line 188). -/
def explicitRetrainConfig (p : RFParams) : RFConfig :=
  { nEstimators := p.nEstimators, maxDepth := p.maxDepth,
    minSamplesSplit := p.minSamplesSplit, minSamplesLeaf := p.minSamplesLeaf,
    randomState := some 42 }

/-- Claim C9: Re-instantiating the ensemble with the search`s best
parameters and `random_state=42` (line 188) denotes exactly the same
configuration as the search engine`s own internal refit (clone of the
`random_state=42` estimator with the best parameters set), so fitting it
on the same full scaled training set yields the same model and identical
test-set predictions: the explicit retraining step is equivalent to the
search`s refit. -/
theorem retrain_equiv_refit {Model : Type} (lib : MLLib Model) (p : RFParams)
    (Xtr : List (List ℚ)) (ytr : List ℚ) (Xte : List (List ℚ)) :
    explicitRetrainConfig p = gridRefitConfig p ∧
    lib.trainForest (explicitRetrainConfig p) Xtr ytr =
      lib.trainForest (gridRefitConfig p) Xtr ytr ∧
    lib.predict (lib.trainForest (explicitRetrainConfig p) Xtr ytr) Xte =
      lib.predict (lib.trainForest (gridRefitConfig p) Xtr ytr) Xte :=
  ⟨rfl, rfl, rfl⟩

/-- All values the core pipeline produces (src/BAN6440.PY lines 70-196),
as one record: the scaled partitions, the three fitted models, the
grid-search winner, and the three (MSE, R²) evaluation records. -/
structure PipelineResult (Model : Type) where
  XTrainScaled : List (List ℚ)
  XTestScaled : List (List ℚ)
  yTrain : List ℚ
  yTest : List ℚ
  lrModel : Model
  rfModel : Model
  optimizedModel : Model
  bestParams : RFParams
  lrEval : Except String ℚ × Except String ℚ
  rfEval : Except String ℚ × Except String ℚ
  optEval : Except String ℚ × Except String ℚ

/-- The happy-path dataflow of the script (lines 70-196): split with seed
42 and test fraction 0.2, scale on the train partition, fit the baseline
linear model, the default ensemble and the tuned ensemble on the scaled
train partition, and evaluate each on the scaled test partition.  `score`
abstracts the 3-fold mean-R² cross-validation scoring of the grid search;
`fallback` is irrelevant whenever some candidate has a valid score. -/
def runPipeline {Model : Type} (lib : MLLib Model) (score : RFParams → Option ℚ)
    (fallback : RFParams) (X : List (List ℚ)) (y : List ℚ) : PipelineResult Model :=
  let idx := train_test_split (List.range X.length) (1/5) 42
  let Xtr := rowsAt X idx.1
  let Xte := rowsAt X idx.2
  let ytr := idx.1.map fun i => y.getD i 0
  let yte := idx.2.map fun i => y.getD i 0
  let sc := fitScaler Xtr
  let XtrS := lib.transform sc Xtr
  let XteS := lib.transform sc Xte
  let lr := lib.trainLinear XtrS ytr
  let rf := lib.trainForest defaultRFConfig XtrS ytr
  let bp := ((bestCandidate score).map fun r => r.2.1).getD fallback
  let opt := lib.trainForest (explicitRetrainConfig bp) XtrS ytr
  { XTrainScaled := XtrS, XTestScaled := XteS, yTrain := ytr, yTest := yte,
    lrModel := lr, rfModel := rf, optimizedModel := opt, bestParams := bp,
    lrEval := (mean_squared_error yte (lib.predict lr XteS),
               r2_score yte (lib.predict lr XteS)),
    rfEval := (mean_squared_error yte (lib.predict rf XteS),
               r2_score yte (lib.predict rf XteS)),
    optEval := (mean_squared_error yte (lib.predict opt XteS),
                r2_score yte (lib.predict opt XteS)) }

/-- Claim C3: After the search completes, the tuned ensemble is trained on
the *entire* scaled training partition — the matrix obtained by scaling
all rows at the train indices of the split, not any cross-validation
sub-fold — using the winning configuration returned by the search. -/
theorem tuned_model_trained_on_full_train {Model : Type} (lib : MLLib Model)
    (score : RFParams → Option ℚ) (fallback : RFParams)
    (X : List (List ℚ)) (y : List ℚ)
    (h : ∃ c ∈ gridCandidates, (score c).isSome) :
    (∃ i v, bestCandidate score =
      some (i, (runPipeline lib score fallback X y).bestParams, v)) ∧
    (runPipeline lib score fallback X y).optimizedModel =
      lib.trainForest
        (explicitRetrainConfig (runPipeline lib score fallback X y).bestParams)
        (runPipeline lib score fallback X y).XTrainScaled
        (runPipeline lib score fallback X y).yTrain ∧
    (runPipeline lib score fallback X y).XTrainScaled =
      lib.transform (fitScaler (rowsAt X (trainIdx X.length (1/5) 42)))
        (rowsAt X (trainIdx X.length (1/5) 42)) ∧
    (runPipeline lib score fallback X y).yTrain =
      (trainIdx X.length (1/5) 42).map fun i => y.getD i 0 := by
  refine ⟨?_, rfl, rfl, rfl⟩
  have hsome : (selectBest (candidateScores score)).isSome := by
    refine selectBest_isSome ?_
    obtain ⟨c, hc, hs⟩ := h
    exact ⟨(c, score c), List.mem_map_of_mem _ hc, hs⟩
  obtain ⟨⟨i, c, v⟩, hb⟩ := Option.isSome_iff_exists.1 hsome
  refine ⟨i, v, ?_⟩
  have hbp : (runPipeline lib score fallback X y).bestParams = c := by
    simp [runPipeline, bestCandidate, hb]
  rw [hbp]
  exact hb

/-- A trivial instantiation of the library operations, used only to write
closed instances of the pipeline theorems. -/
def unitLib : MLLib Unit :=
  { trainLinear := fun _ _ => (), trainForest := fun _ _ _ => (),
    predict := fun _ X => X.map fun _ => 0, transform := fun _ X => X }

/-- Claim C3 (witness): Closed instantiation at the trivial library, the
`n_estimators` scoring function, and a 3-row dataset: the hypothesis (some
candidate has a valid score) holds and the conclusion follows from the
theorem. -/
theorem tuned_model_trained_on_full_train_witness :
    (∃ i v, bestCandidate (fun c => some (c.nEstimators : ℚ)) =
      some (i, (runPipeline unitLib (fun c => some (c.nEstimators : ℚ))
        ⟨100, none, 2, 1⟩ [[1], [2], [3]] [1, 2, 3]).bestParams, v)) ∧
    (runPipeline unitLib (fun c => some (c.nEstimators : ℚ))
        ⟨100, none, 2, 1⟩ [[1], [2], [3]] [1, 2, 3]).optimizedModel =
      unitLib.trainForest
        (explicitRetrainConfig (runPipeline unitLib (fun c => some (c.nEstimators : ℚ))
          ⟨100, none, 2, 1⟩ [[1], [2], [3]] [1, 2, 3]).bestParams)
        (runPipeline unitLib (fun c => some (c.nEstimators : ℚ))
          ⟨100, none, 2, 1⟩ [[1], [2], [3]] [1, 2, 3]).XTrainScaled
        (runPipeline unitLib (fun c => some (c.nEstimators : ℚ))
          ⟨100, none, 2, 1⟩ [[1], [2], [3]] [1, 2, 3]).yTrain ∧
    (runPipeline unitLib (fun c => some (c.nEstimators : ℚ))
        ⟨100, none, 2, 1⟩ [[1], [2], [3]] [1, 2, 3]).XTrainScaled =
      unitLib.transform
        (fitScaler (rowsAt [[1], [2], [3]] (trainIdx (List.length [[1], [2], [3]]) (1/5) 42)))
        (rowsAt [[1], [2], [3]] (trainIdx (List.length [[1], [2], [3]]) (1/5) 42)) ∧
    (runPipeline unitLib (fun c => some (c.nEstimators : ℚ))
        ⟨100, none, 2, 1⟩ [[1], [2], [3]] [1, 2, 3]).yTrain =
      (trainIdx (List.length [[1], [2], [3]]) (1/5) 42).map
        fun i => List.getD [1, 2, 3] i 0 :=
  tuned_model_trained_on_full_train unitLib (fun c => some (c.nEstimators : ℚ))
    ⟨100, none, 2, 1⟩ [[1], [2], [3]] [1, 2, 3]
    ⟨⟨50, none, 2, 1⟩, by decide, rfl⟩

/-- Claim C10: All three models are fit on the identical scaled training
matrix and target vector, and all three evaluation records are computed
from the identical held-out test partition and scaled test matrix — the
very values produced once by the preprocessing stage — so the three
(MSE, R²) records are directly comparable. -/
theorem models_comparable {Model : Type} (lib : MLLib Model)
    (score : RFParams → Option ℚ) (fallback : RFParams)
    (X : List (List ℚ)) (y : List ℚ) :
    (runPipeline lib score fallback X y).lrModel =
      lib.trainLinear (runPipeline lib score fallback X y).XTrainScaled
        (runPipeline lib score fallback X y).yTrain ∧
    (runPipeline lib score fallback X y).rfModel =
      lib.trainForest defaultRFConfig (runPipeline lib score fallback X y).XTrainScaled
        (runPipeline lib score fallback X y).yTrain ∧
    (runPipeline lib score fallback X y).optimizedModel =
      lib.trainForest
        (explicitRetrainConfig (runPipeline lib score fallback X y).bestParams)
        (runPipeline lib score fallback X y).XTrainScaled
        (runPipeline lib score fallback X y).yTrain ∧
    (runPipeline lib score fallback X y).lrEval =
      (mean_squared_error (runPipeline lib score fallback X y).yTest
        (lib.predict (runPipeline lib score fallback X y).lrModel
          (runPipeline lib score fallback X y).XTestScaled),
       r2_score (runPipeline lib score fallback X y).yTest
        (lib.predict (runPipeline lib score fallback X y).lrModel
          (runPipeline lib score fallback X y).XTestScaled)) ∧
    (runPipeline lib score fallback X y).rfEval =
      (mean_squared_error (runPipeline lib score fallback X y).yTest
        (lib.predict (runPipeline lib score fallback X y).rfModel
          (runPipeline lib score fallback X y).XTestScaled),
       r2_score (runPipeline lib score fallback X y).yTest
        (lib.predict (runPipeline lib score fallback X y).rfModel
          (runPipeline lib score fallback X y).XTestScaled)) ∧
    (runPipeline lib score fallback X y).optEval =
      (mean_squared_error (runPipeline lib score fallback X y).yTest
        (lib.predict (runPipeline lib score fallback X y).optimizedModel
          (runPipeline lib score fallback X y).XTestScaled),
       r2_score (runPipeline lib score fallback X y).yTest
        (lib.predict (runPipeline lib score fallback X y).optimizedModel
          (runPipeline lib score fallback X y).XTestScaled)) :=
  ⟨rfl, rfl, rfl, rfl, rfl, rfl⟩

/-- The script`s pipeline stages (the seven try/except blocks of
src/BAN6440.PY): data loading (Step 1), visualization (Step 2),
preprocessing (Step 3), linear regression (Step 4), random forest
(Step 5), model optimization (Step 6), final evaluation (Step 7). -/
inductive Stage
  | load
  | visualize
  | preprocess
  | linear
  | forest
  | optimize
  | finalEval
deriving DecidableEq, Repr

/-- Observable outcome of one run of the script`s staging. -/
structure RunResult where
  executed : List Stage
  abortedAt : Option Stage
  caught : List Stage
  tableEmitted : Bool
deriving DecidableEq, Repr

/-- The script`s control flow over its stages (src/BAN6440.PY).  `ok s`
says whether stage `s`'s own body raises an exception.  Steps 1 and 3
call `exit()` in their handlers (lines 34-39, 81-83), aborting the whole
run; the handlers of Steps 2, 4, 5, 6 and 7 print the error message and
fall through to the next stage (lines 64-65, 113-114, 156-157, 212-213,
243-244).  Step 7 builds the comparison table from `mse_lr`, `mse_rf` and
`mse_optimized` (lines 218-222), so whenever any of Steps 4-6 failed the
names are unbound and Step 7 itself raises `NameError`, is caught, and the
entire table is omitted. -/
def runScript (ok : Stage → Bool) : RunResult :=
  if ¬ ok .load then
    { executed := [.load], abortedAt := some .load, caught := [], tableEmitted := false }
  else if ¬ ok .preprocess then
    { executed := [.load, .visualize, .preprocess], abortedAt := some .preprocess,
      caught := if ok .visualize then [] else [.visualize], tableEmitted := false }
  else
    let evalOK := ok .finalEval && ok .linear && ok .forest && ok .optimize
    { executed := [.load, .visualize, .preprocess, .linear, .forest, .optimize, .finalEval],
      abortedAt := none,
      caught :=
        (if ok .visualize then [] else [.visualize]) ++
        (if ok .linear then [] else [.linear]) ++
        (if ok .forest then [] else [.forest]) ++
        (if ok .optimize then [] else [.optimize]) ++
        (if evalOK then [] else [.finalEval]),
      tableEmitted := evalOK }

/-- A run in which only the linear-regression stage (Step 4) fails. -/
def failLinearOnly : Stage → Bool := fun s => decide (s ≠ Stage.linear)

/-- Claim C6 (counterexample): A failure at the linear-regression stage does
not abort the run: the random-forest and optimization stages still
execute and the run ends unaborted; moreover, although the random-forest
and tuned models finished training, the comparison table is omitted
entirely (Step 7 raises `NameError` on the unbound `mse_lr`), not merely
the row of the model that never finished. -/
theorem stage_failure_does_not_abort :
    (runScript failLinearOnly).abortedAt = none ∧
    Stage.forest ∈ (runScript failLinearOnly).executed ∧
    Stage.optimize ∈ (runScript failLinearOnly).executed ∧
    Stage.finalEval ∈ (runScript failLinearOnly).executed ∧
    (runScript failLinearOnly).tableEmitted = false := by decide

/-- Claim C6 (amended): A failure during data loading or preprocessing
aborts the run at that stage with nothing downstream executed and no
table; a failure at any other stage is caught (the handler surfaces the
stage and its cause) and execution continues through all remaining
stages; the comparison table is emitted only when all three models
finished training and the table stage itself succeeds — if any model
stage failed the table-building stage fails and the whole table is
omitted. -/
theorem orchestrator_staging (ok : Stage → Bool) :
    (ok .load = false →
      (runScript ok).abortedAt = some .load ∧ (runScript ok).executed = [.load] ∧
      (runScript ok).tableEmitted = false) ∧
    (ok .load = true → ok .preprocess = false →
      (runScript ok).abortedAt = some .preprocess ∧
      (runScript ok).executed = [.load, .visualize, .preprocess] ∧
      (runScript ok).tableEmitted = false) ∧
    (ok .load = true → ok .preprocess = true →
      (runScript ok).abortedAt = none ∧
      (runScript ok).executed =
        [.load, .visualize, .preprocess, .linear, .forest, .optimize, .finalEval] ∧
      (runScript ok).tableEmitted =
        (ok .finalEval && ok .linear && ok .forest && ok .optimize) ∧
      (ok .linear = false → Stage.linear ∈ (runScript ok).caught) ∧
      (ok .linear = false → (runScript ok).tableEmitted = false)) := by
  refine ⟨fun h => ?_, fun h1 h2 => ?_, fun h1 h2 => ?_⟩
  · rw [runScript, if_pos (by simp [h])]
    exact ⟨rfl, rfl, rfl⟩
  · rw [runScript, if_neg (by simp [h1]), if_pos (by simp [h2])]
    exact ⟨rfl, rfl, rfl⟩
  · rw [runScript, if_neg (by simp [h1]), if_neg (by simp [h2])]
    refine ⟨rfl, rfl, rfl, fun h3 => ?_, fun h3 => ?_⟩
    · simp [h3]
    · simp [h3]

/-- Claim C6 (amended, witness): Instantiation of `orchestrator_staging` at
the run in which only the linear-regression stage fails: loading and
preprocessing succeed, so the run is not aborted, all stages execute, the
failed stage is among the caught ones, and the table is not emitted. -/
theorem orchestrator_staging_witness :
    (runScript failLinearOnly).abortedAt = none ∧
    (runScript failLinearOnly).executed =
      [.load, .visualize, .preprocess, .linear, .forest, .optimize, .finalEval] ∧
    (runScript failLinearOnly).tableEmitted =
      (failLinearOnly .finalEval && failLinearOnly .linear &&
        failLinearOnly .forest && failLinearOnly .optimize) ∧
    Stage.linear ∈ (runScript failLinearOnly).caught ∧
    (runScript failLinearOnly).tableEmitted = false := by
  have h := (orchestrator_staging failLinearOnly).2.2 (by decide) (by decide)
  exact ⟨h.1, h.2.1, h.2.2.1, h.2.2.2.1 (by decide), h.2.2.2.2 (by decide)⟩

end BAN6440
